import Mathlib

/-!
Verification of the DrumMachine layered signal-processing chain.

The definitions below are a shallow embedding of the generator core:
the settings model and default backfill (backend/src/index.ts), the
ffmpeg filter-graph construction of generateLayeredSample and the
output-naming helpers (the offline renderer module), and the realtime
previewer state machine (the Generator component).  Audio samples are
modelled as rational numbers and a signal as a function from sample
index to amplitude; the semantics given to the ffmpeg filters the plan
invokes (volume, alimiter, acopy, amix with normalization disabled,
aecho) follow the engine's documented behaviour, since ffmpeg itself is
an external collaborator of the repository.
-/

namespace DrumMachine

/-- Settings record for one generation request, mirroring
GenerateLayerSettings.  All ten numeric fields, dB/ms/Hz values kept as
rationals. -/
structure GenerateLayerSettings where
  bodySemitones : ℚ
  transientGainDb : ℚ
  textureHpHz : ℚ
  saturation : ℚ
  reverbMix : ℚ
  clipperInGainDb : ℚ
  clipperOutGainDb : ℚ
  trimDb : ℚ
  decayMs : ℚ
  normalizePeakDb : ℚ
deriving DecidableEq

/-- The defaultSettings object of the POST /generate/layer handler. -/
def defaultSettings : GenerateLayerSettings where
  bodySemitones := 0
  transientGainDb := 0
  textureHpHz := 200
  saturation := 0
  reverbMix := 0
  clipperInGainDb := 0
  clipperOutGainDb := 0
  trimDb := -60
  decayMs := 0
  normalizePeakDb := -4/5

/-- An audio signal: amplitude at each sample index. -/
abbrev Signal : Type := ℕ → ℚ

/-- The ffmpeg volume filter: multiply every sample by a gain. -/
def volumeFilter (gain : ℚ) (x : Signal) : Signal := fun n => gain * x n

/-- The ffmpeg alimiter filter with a given limit: a limiter whose hard
ceiling clamps every sample into the interval from minus limit to
limit (level normalization disabled, as the chain always passes
level=false). -/
def alimiterFilter (limit : ℚ) (x : Signal) : Signal :=
  fun n => max (-limit) (min limit (x n))

/-- The normalize stage of the chain:
alimiter at the linear peak target followed by a volume multiply by the
same factor (the code emits
alimiter=limit=p:level=false,volume=volume=p:precision=fixed). -/
def normalizeFilter (peakLinear : ℚ) (x : Signal) : Signal :=
  volumeFilter peakLinear (alimiterFilter peakLinear x)

/-- Characterization of the linear equivalent of a normalizePeakDb value
in the closed range -6..0 dB: p equals 10 raised to db/20 for some db
with -6 ≤ db ≤ 0 exactly when p is positive, at most 1 (db ≤ 0) and
p to the 20th power is at least 10 to the minus 6 (db ≥ -6). -/
def isNormalizePeakLinear (p : ℚ) : Prop :=
  0 < p ∧ p ≤ 1 ∧ 1 ≤ 10 ^ (6 : ℕ) * p ^ (20 : ℕ)

instance (p : ℚ) : Decidable (isNormalizePeakLinear p) := by
  unfold isNormalizePeakLinear; infer_instance

/-- Pointwise sum of two signals (amix sums streams sample by sample;
the shorter stream is zero-padded, which the function model gives for
free). -/
def addSignals (x y : Signal) : Signal := fun n => x n + y n

/-- The mix stage of generateLayeredSample: with exactly one active
layer the stream is passed through by acopy; with several layers they
are combined by amix=inputs=N:duration=longest:normalize=0, which sums
the streams without scaling because input normalization is disabled. -/
def mixStage (layers : List Signal) : Signal :=
  if layers.length = 1 then layers.headI
  else fun n => (layers.map (fun x => x n)).sum

/-- A constant full-scale signal, every sample at amplitude one. -/
def fullScaleSignal : Signal := fun _ => 1

/-- Claim C1: for every input signal reaching the normalize stage,
whatever upstream stages produced it, the stage output (alimiter at the
linear equivalent of normalizePeakDb followed by a volume multiply by
the same factor) has peak amplitude never exceeding that linear
equivalent, for normalizePeakDb in -6..0 dB. -/
theorem normalize_stage_peak_bounded (p : ℚ) (hp : isNormalizePeakLinear p)
    (x : Signal) (n : ℕ) : |normalizeFilter p x n| ≤ p := by
  obtain ⟨h0, h1, -⟩ := hp
  unfold normalizeFilter volumeFilter alimiterFilter
  have hlo : -p ≤ max (-p) (min p (x n)) := le_max_left _ _
  have hhi : max (-p) (min p (x n)) ≤ p :=
    max_le (by linarith) (min_le_left _ _)
  have habs : |max (-p) (min p (x n))| ≤ p := abs_le.mpr ⟨hlo, hhi⟩
  calc |p * max (-p) (min p (x n))|
      = p * |max (-p) (min p (x n))| := by
        rw [abs_mul, abs_of_pos h0]
    _ ≤ p * p := by nlinarith
    _ ≤ p := by nlinarith

/-- Witness for C1: at peak target 1 (0 dB) and a signal of amplitude 2
the normalize stage output stays within the ceiling. -/
theorem normalize_stage_peak_bounded_witness :
    isNormalizePeakLinear 1 ∧ |normalizeFilter 1 fullScaleSignal 0| ≤ 1 :=
  ⟨by norm_num [isNormalizePeakLinear],
   normalize_stage_peak_bounded 1 (by norm_num [isNormalizePeakLinear])
     fullScaleSignal 0⟩

/-- Counterexample to claim C2: two active full-scale layers are summed
by the mix stage without any scaling (amix is invoked with normalize=0),
so the mixed sample reaches amplitude 2 and clips before the saturation
stage, contradicting the claimed not-pre-clipping scaling. -/
theorem mix_stage_counterexample :
    mixStage [fullScaleSignal, fullScaleSignal] 0 = 2 ∧
      ¬ |mixStage [fullScaleSignal, fullScaleSignal] 0| ≤ 1 := by
  constructor
  · norm_num [mixStage, fullScaleSignal]
  · norm_num [mixStage, fullScaleSignal]

/-- Claim C2 amended: with exactly one active layer the mix stage passes
the signal through unchanged; with two or three active layers it sums
them with equal unit weight and applies no scaling (normalization is
disabled), so the pre-saturation sum may exceed full scale. -/
theorem mix_stage_amended :
    (∀ x : Signal, mixStage [x] = x) ∧
    (∀ (x y : Signal) (n : ℕ), mixStage [x, y] n = x n + y n) ∧
    (∀ (x y z : Signal) (n : ℕ), mixStage [x, y, z] n = x n + y n + z n) := by
  refine ⟨fun x => rfl, fun x y n => ?_, fun x y z n => ?_⟩
  · norm_num [mixStage]
  · norm_num [mixStage]; ring

/-- One stage descriptor of the chain plan built by
generateLayeredSample, one constructor per filterParts push.  Gains that
the code derives through irrational powers (semitone ratios and dB
conversions) are carried as their raw parameter values; gains the code
computes by rational arithmetic (saturation drive, reverb gains, fade
length) are carried as the computed rationals. -/
inductive Stage where
  | pitchShiftStage (semitones : ℚ)
  | gainStage (gainDb : ℚ)
  | highpassStage (cutoffHz : ℚ)
  | passthroughStage
  | amixStage (inputCount : ℕ)
  | saturateStage (drive : ℚ)
  | aechoStage (inGain outGain : ℚ) (delaysMs : List ℕ) (decays : List ℚ)
  | clipperStage (inGainDb outGainDb : ℚ)
  | fadeStage (seconds : ℚ)
  | trimStartStage (thresholdDb : ℚ)
  | trimEndStage (thresholdDb : ℚ)
  | normalizeStageOf (peakDb : ℚ)
  | outputFormatStage
deriving DecidableEq

/-- Number of active layers, the length of the layerNames array: one per
provided input path. -/
def activeLayerCount (bodyPath transientPath texturePath : Option String) : ℕ :=
  (if bodyPath.isSome then 1 else 0) +
    (if transientPath.isSome then 1 else 0) +
    (if texturePath.isSome then 1 else 0)

/-- The mix slot of the plan: acopy pass-through for a single layer,
amix with normalization disabled otherwise. -/
def mixPart (layerCount : ℕ) : Stage :=
  if layerCount = 1 then Stage.passthroughStage else Stage.amixStage layerCount

/-- The reverb slot of the plan: for reverbMix 0 the code emits a plain
acopy; for positive reverbMix it emits aecho with in_gain
1 - reverbMix*0.3, out_gain reverbMix*0.6, delays 60|120|180 and decays
0.4|0.3|0.2. -/
def reverbPart (reverbMix : ℚ) : Stage :=
  if 0 < reverbMix then
    Stage.aechoStage (1 - reverbMix * (3/10)) (reverbMix * (6/10))
      [60, 120, 180] [2/5, 3/10, 1/5]
  else Stage.passthroughStage

/-- The decay slot of the plan: acopy for decayMs 0, otherwise afade
over decayMs/1000 seconds. -/
def decayPart (decayMs : ℚ) : Stage :=
  if 0 < decayMs then Stage.fadeStage (decayMs / 1000)
  else Stage.passthroughStage

/-- The ordered filterParts list assembled by generateLayeredSample:
per-layer input stages (body pitch shift, transient gain, texture
high-pass) for the provided paths, then mix, saturation drive
1 + saturation*4 into a limiter, reverb, clipper, decay, leading and
trailing silence trim, peak normalize and the fixed output format. -/
def buildFilterParts (bodyPath transientPath texturePath : Option String)
    (s : GenerateLayerSettings) : List Stage :=
  (if bodyPath.isSome then [Stage.pitchShiftStage s.bodySemitones] else []) ++
    (if transientPath.isSome then [Stage.gainStage s.transientGainDb] else []) ++
    (if texturePath.isSome then [Stage.highpassStage s.textureHpHz] else []) ++
    [mixPart (activeLayerCount bodyPath transientPath texturePath),
     Stage.saturateStage (1 + s.saturation * 4),
     reverbPart s.reverbMix,
     Stage.clipperStage s.clipperInGainDb s.clipperOutGainDb,
     decayPart s.decayMs,
     Stage.trimStartStage s.trimDb,
     Stage.trimEndStage s.trimDb,
     Stage.normalizeStageOf s.normalizePeakDb,
     Stage.outputFormatStage]

/-- A sample delayed by a whole number of milliseconds at the fixed
44100 Hz rate (zero before the delay has elapsed). -/
def delayedSample (delayMs : ℕ) (x : Signal) (n : ℕ) : ℚ :=
  let d := delayMs * 441 / 10
  if d ≤ n then x (n - d) else 0

/-- Sum of the delayed echo taps of the aecho filter, each delayed copy
scaled by its decay. -/
def delayTaps (delaysMs : List ℕ) (decays : List ℚ) (x : Signal) (n : ℕ) : ℚ :=
  (List.zip delaysMs decays).foldl
    (fun acc dd => acc + dd.2 * delayedSample dd.1 x n) 0

/-- The aecho filter: the input scaled by in_gain plus the delayed,
decayed taps scaled by out_gain. -/
def aechoFilter (inGain outGain : ℚ) (delaysMs : List ℕ) (decays : List ℚ)
    (x : Signal) : Signal :=
  fun n => inGain * x n + outGain * delayTaps delaysMs decays x n

/-- Interpretation of the reverb slot of the plan: acopy is the
identity, aecho applies the echo blend.  No other stage kind occurs in
that slot. -/
def applyReverbStage : Stage → Signal → Signal
  | Stage.aechoStage inGain outGain delaysMs decays, x =>
      aechoFilter inGain outGain delaysMs decays x
  | _, x => x

/-- The reverb behaviour in the words of the claim: a dry signal at gain
1 - reverbMix*0.3 blended with a three-tap delayed wet signal (delays
60/120/180 ms, decays 0.4/0.3/0.2) at gain reverbMix*0.6. -/
def claimReverbBlend (reverbMix : ℚ) (x : Signal) : Signal :=
  fun n =>
    (1 - reverbMix * (3/10)) * x n +
      reverbMix * (6/10) *
        ((2/5) * delayedSample 60 x n + (3/10) * delayedSample 120 x n +
          (1/5) * delayedSample 180 x n)

/-- Claim C4: with reverbMix 0 the reverb slot is an exact pass-through,
so the full chain output equals that of a chain with the reverb stage
entirely omitted; with positive reverbMix the slot blends the dry signal
at gain 1 - reverbMix*0.3 with the three-tap delayed wet signal (delays
60/120/180 ms, decays 0.4/0.3/0.2) at gain reverbMix*0.6. -/
theorem reverb_stage_correct :
    (∀ (pre post : Signal → Signal) (x : Signal),
        post (applyReverbStage (reverbPart 0) (pre x)) = post (pre x)) ∧
    (∀ reverbMix : ℚ, 0 < reverbMix → ∀ x : Signal,
        applyReverbStage (reverbPart reverbMix) x = claimReverbBlend reverbMix x) := by
  constructor
  · intro pre post x
    rfl
  · intro m hm x
    funext n
    simp only [reverbPart, if_pos hm, applyReverbStage, aechoFilter, delayTaps,
      List.zip, List.zipWith, List.foldl, claimReverbBlend]
    ring

/-- Witness for C4: the positive-mix branch instantiated at reverbMix
one half on the full-scale signal. -/
theorem reverb_stage_correct_witness :
    (0 : ℚ) < 1/2 ∧
      applyReverbStage (reverbPart (1/2)) fullScaleSignal =
        claimReverbBlend (1/2) fullScaleSignal :=
  ⟨by norm_num, reverb_stage_correct.2 (1/2) (by norm_num) fullScaleSignal⟩

/-- Settings as they arrive in the body of POST /generate/layer: every
field may be omitted. -/
structure PartialGenerateLayerSettings where
  bodySemitones : Option ℚ := none
  transientGainDb : Option ℚ := none
  textureHpHz : Option ℚ := none
  saturation : Option ℚ := none
  reverbMix : Option ℚ := none
  clipperInGainDb : Option ℚ := none
  clipperOutGainDb : Option ℚ := none
  trimDb : Option ℚ := none
  decayMs : Option ℚ := none
  normalizePeakDb : Option ℚ := none
deriving DecidableEq

/-- The spread merge of the handler, mergedSettings: every field of the
request that is present overrides the default, untouched by any range
check. -/
def mergeSettings (d : GenerateLayerSettings)
    (p : PartialGenerateLayerSettings) : GenerateLayerSettings where
  bodySemitones := p.bodySemitones.getD d.bodySemitones
  transientGainDb := p.transientGainDb.getD d.transientGainDb
  textureHpHz := p.textureHpHz.getD d.textureHpHz
  saturation := p.saturation.getD d.saturation
  reverbMix := p.reverbMix.getD d.reverbMix
  clipperInGainDb := p.clipperInGainDb.getD d.clipperInGainDb
  clipperOutGainDb := p.clipperOutGainDb.getD d.clipperOutGainDb
  trimDb := p.trimDb.getD d.trimDb
  decayMs := p.decayMs.getD d.decayMs
  normalizePeakDb := p.normalizePeakDb.getD d.normalizePeakDb

/-- A request body carrying a negative high-pass cutoff. -/
def negativeCutoffRequest : PartialGenerateLayerSettings where
  textureHpHz := some (-5)

/-- Claim C5 evaluated at the failing input: the handler merges the
request over the defaults without any range check, so a textureHpHz of
-5 Hz, far outside the declared 20..2000 range, survives the merge and
is handed to the engine inside the highpass stage of the plan. -/
theorem out_of_range_cutoff_passes_downstream :
    (mergeSettings defaultSettings negativeCutoffRequest).textureHpHz = -5 ∧
    ¬ (20 ≤ (mergeSettings defaultSettings negativeCutoffRequest).textureHpHz ∧
        (mergeSettings defaultSettings negativeCutoffRequest).textureHpHz ≤ 2000) ∧
    Stage.highpassStage (-5) ∈
      buildFilterParts (some "body.wav") none (some "texture.wav")
        (mergeSettings defaultSettings negativeCutoffRequest) := by
  refine ⟨rfl, by norm_num [mergeSettings, defaultSettings, negativeCutoffRequest], ?_⟩
  simp [buildFilterParts, mergeSettings, defaultSettings, negativeCutoffRequest]

/-- The texture argument handleGenerate sends to the renderer: the
texture path only when a texture sample is selected and its slot is not
muted, otherwise no path at all. -/
def textureArgument (texturePresent textureMuted : Bool) (texPath : String) :
    Option String :=
  if texturePresent && !textureMuted then some texPath else none

/-- Counterexample to claim C9: a present-but-muted texture is stripped
from the render request by handleGenerate, so the offline chain plan it
produces is identical to the plan for an absent texture, not a plan that
keeps a silenced texture stage. -/
theorem muted_vs_absent_texture_counterexample :
    textureArgument true true "texture.wav" =
      textureArgument false false "texture.wav" ∧
    buildFilterParts (some "body.wav") (some "transient.wav")
        (textureArgument true true "texture.wav") defaultSettings =
      buildFilterParts (some "body.wav") (some "transient.wav")
        (textureArgument false false "texture.wav") defaultSettings :=
  ⟨rfl, rfl⟩

/-- Claim C9 amended: with body, transient and texture all present and
unmuted the plan's mix stage combines all three layers; an absent
texture removes its high-pass stage, leaving a strictly shorter plan;
and a present-but-muted texture is excluded from the render request, so
its offline chain plan coincides with the absent-texture plan (the
silenced-stage behaviour exists only in the realtime preview graph). -/
theorem chain_plan_layers_amended :
    (∀ (s : GenerateLayerSettings) (bodyP transientP texP : String),
        Stage.amixStage 3 ∈
          buildFilterParts (some bodyP) (some transientP) (some texP) s) ∧
    (∀ (s : GenerateLayerSettings) (bodyP transientP texP : String),
        (buildFilterParts (some bodyP) (some transientP) none s).length + 1 =
          (buildFilterParts (some bodyP) (some transientP) (some texP) s).length) ∧
    (∀ (s : GenerateLayerSettings) (bodyP transientP texP : String),
        buildFilterParts (some bodyP) (some transientP)
            (textureArgument true true texP) s =
          buildFilterParts (some bodyP) (some transientP) none s) := by
  refine ⟨fun s bp tp xp => ?_, fun s bp tp xp => ?_, fun s bp tp xp => rfl⟩
  · simp [buildFilterParts, activeLayerCount, mixPart]
  · simp [buildFilterParts, activeLayerCount]

/-- The two preview modes of the Generator component. -/
inductive PMode where
  | wet
  | dry
deriving DecidableEq

/-- Abstract state of the previewer: whether the two required samples
are selected, whether a preview is loading, which mode is live
(isPreviewing / isDryPreviewing), the generation id of the live node
graph (none after teardown), and a fresh-id source for newly built
graphs. -/
structure PrevState where
  hasSamples : Bool
  loading : Bool
  mode : Option PMode
  graphGen : Option ℕ
  nextGen : ℕ
deriving DecidableEq

/-- stopPreview: stops and disconnects every node, clears the node
record and resets both mode flags. -/
def stopPreview (s : PrevState) : PrevState :=
  { s with mode := none, graphGen := none }

/-- startPreview: returns unchanged without the two required samples;
otherwise tears the previous session down, builds a fresh wet graph and
marks the wet mode live. -/
def startPreview (s : PrevState) : PrevState :=
  if s.hasSamples then
    let s1 := stopPreview s
    { s1 with
      mode := some PMode.wet
      graphGen := some s1.nextGen
      nextGen := s1.nextGen + 1 }
  else s

/-- startDryPreview: the dry counterpart of startPreview. -/
def startDryPreview (s : PrevState) : PrevState :=
  if s.hasSamples then
    let s1 := stopPreview s
    { s1 with
      mode := some PMode.dry
      graphGen := some s1.nextGen
      nextGen := s1.nextGen + 1 }
  else s

/-- Enabled condition of the wet preview button, the negation of
disabled: missing samples, a loading preview or an active dry preview
disable it. -/
def wetButtonEnabled (s : PrevState) : Bool :=
  s.hasSamples && !s.loading && !(s.mode == some PMode.dry)

/-- Enabled condition of the dry preview button: missing samples, a
loading preview or an active wet preview disable it. -/
def dryButtonEnabled (s : PrevState) : Bool :=
  s.hasSamples && !s.loading && !(s.mode == some PMode.wet)

/-- The spacebar keydown handler: with both samples selected and no
preview loading it stops the wet preview when one is live and otherwise
calls startPreview, regardless of a live dry preview. -/
def spaceKeyStep (s : PrevState) : PrevState :=
  if s.hasSamples && !s.loading then
    if s.mode == some PMode.wet then stopPreview s else startPreview s
  else s

/-- A state with a live dry preview session. -/
def dryActiveState : PrevState where
  hasSamples := true
  loading := false
  mode := some PMode.dry
  graphGen := some 0
  nextGen := 1

/-- Counterexample to claim C6: a spacebar start request arriving while
a dry preview is active is not rejected — the handler starts the wet
preview at once, implicitly tearing the dry session down, so playback
begins without the dry mode having been explicitly stopped first. -/
theorem wet_start_during_dry_not_rejected :
    dryActiveState.mode = some PMode.dry ∧
    (spaceKeyStep dryActiveState).mode = some PMode.wet ∧
    spaceKeyStep dryActiveState ≠ dryActiveState := by
  refine ⟨rfl, rfl, ?_⟩
  decide

/-- Claim C6 amended: the two preview buttons are disabled while the
opposite mode is active, but the spacebar path is not gated: with
samples selected, not loading and no live wet preview it starts the wet
preview immediately, implicitly replacing whatever graph was live; and
after an explicit stop, starting either mode succeeds and installs a
fresh node graph, never reusing a prior generation. -/
theorem preview_mode_exclusion_amended :
    (∀ s : PrevState, s.mode = some PMode.dry → wetButtonEnabled s = false) ∧
    (∀ s : PrevState, s.mode = some PMode.wet → dryButtonEnabled s = false) ∧
    (∀ s : PrevState, s.hasSamples = true → s.loading = false →
        s.mode ≠ some PMode.wet →
        (spaceKeyStep s).mode = some PMode.wet ∧
          (spaceKeyStep s).graphGen = some s.nextGen) ∧
    (∀ s : PrevState, s.hasSamples = true →
        ((startPreview (stopPreview s)).mode = some PMode.wet ∧
            (startPreview (stopPreview s)).graphGen = some s.nextGen) ∧
          ((startDryPreview (stopPreview s)).mode = some PMode.dry ∧
            (startDryPreview (stopPreview s)).graphGen = some s.nextGen)) ∧
    (∀ (s : PrevState) (g : ℕ), s.hasSamples = true → s.graphGen = some g →
        g < s.nextGen → (startPreview s).graphGen ≠ some g) := by
  refine ⟨fun s hm => ?_, fun s hm => ?_, fun s h1 h2 h3 => ?_,
    fun s h1 => ?_, fun s g h1 h2 h3 => ?_⟩
  · simp [wetButtonEnabled, hm]
  · simp [dryButtonEnabled, hm]
  · have hne : (s.mode == some PMode.wet) = false := by
      simp [beq_eq_false_iff_ne, h3]
    constructor <;>
      simp [spaceKeyStep, startPreview, stopPreview, h1, h2, hne]
  · constructor <;> constructor <;>
      simp [startPreview, startDryPreview, stopPreview, h1]
  · simp only [startPreview, stopPreview, h1, if_true]
    intro hcontra
    have : s.nextGen = g := by
      simpa using hcontra
    omega

/-- Witness for C6 amended: from the live dry state the spacebar starts
the wet preview with the fresh graph generation. -/
theorem preview_mode_exclusion_amended_witness :
    (spaceKeyStep dryActiveState).mode = some PMode.wet ∧
      (spaceKeyStep dryActiveState).graphGen = some 1 :=
  preview_mode_exclusion_amended.2.2.1 dryActiveState rfl rfl (by decide)

/-- Natural buffer length of a preview session: the longest of the body
buffer scaled by the inverse pitch factor, the transient buffer and the
texture buffer (zero when absent). -/
def maxBufferDuration (bodyDur transDur texDur pitchFactor : ℚ) : ℚ :=
  max (bodyDur / pitchFactor) (max transDur texDur)

/-- Effective preview duration computed by startPreview: with a positive
decay, the minimum of decayMs/1000 + 0.1 and the natural buffer length;
otherwise the natural buffer length. -/
def effectiveDuration (decayMs maxDur : ℚ) : ℚ :=
  if 0 < decayMs then min (decayMs / 1000 + 1/10) maxDur else maxDur

/-- Delay in milliseconds of the scheduled auto-stop: the effective
duration in milliseconds plus a 100 ms guard. -/
def autoStopDelayMs (decayMs maxDur : ℚ) : ℚ :=
  effectiveDuration decayMs maxDur * 1000 + 100

/-- Effective duration in the words of claim C7: the longer of the
natural buffer length, or the decay length when the decay length is
shorter than the buffer length. -/
def claimEffectiveDuration (decayMs maxDur : ℚ) : ℚ :=
  if 0 < decayMs ∧ decayMs / 1000 < maxDur then max maxDur (decayMs / 1000)
  else maxDur

/-- Effective duration as the code actually computes it, spelled without
min: with a positive decay the shorter of decayMs/1000 + 0.1 and the
natural buffer length, else the natural buffer length. -/
def amendedEffectiveDuration (decayMs maxDur : ℚ) : ℚ :=
  if 0 < decayMs then
    if decayMs / 1000 + 1/10 ≤ maxDur then decayMs / 1000 + 1/10 else maxDur
  else maxDur

/-- Counterexample to claim C7: with a 500 ms decay on a 2 s buffer the
session self-terminates after 0.6 s (auto-stop timer at 700 ms), not
after the longer buffer length of 2 s that the claim computes. -/
theorem auto_stop_duration_counterexample :
    effectiveDuration 500 2 = 3/5 ∧
    claimEffectiveDuration 500 2 = 2 ∧
    effectiveDuration 500 2 ≠ claimEffectiveDuration 500 2 ∧
    autoStopDelayMs 500 2 = 700 := by
  refine ⟨?_, ?_, ?_, ?_⟩ <;>
    norm_num [effectiveDuration, claimEffectiveDuration, autoStopDelayMs,
      min_def, max_def]

/-- Claim C7 amended: a session with no explicit stop self-terminates
after the effective duration — with a positive decay the shorter of
decayMs/1000 + 0.1 s and the natural buffer length (the maximum of the
layer buffer durations, the body duration divided by the pitch factor),
else the natural buffer length — plus a 100 ms guard. -/
theorem auto_stop_duration_amended :
    ∀ bodyDur transDur texDur pitchFactor decayMs : ℚ,
      effectiveDuration decayMs
          (maxBufferDuration bodyDur transDur texDur pitchFactor) =
        amendedEffectiveDuration decayMs
          (maxBufferDuration bodyDur transDur texDur pitchFactor) ∧
      autoStopDelayMs decayMs
          (maxBufferDuration bodyDur transDur texDur pitchFactor) =
        amendedEffectiveDuration decayMs
          (maxBufferDuration bodyDur transDur texDur pitchFactor) * 1000 + 100 := by
  intro bodyDur transDur texDur pitchFactor decayMs
  constructor
  · simp [effectiveDuration, amendedEffectiveDuration, min_def]
  · simp [autoStopDelayMs, effectiveDuration, amendedEffectiveDuration, min_def]

/-- The failure cases of generateLayeredSample, one constructor per
thrown error, in the renderer's own wording. -/
inductive GenError where
  | engineUnavailable
  | noLayerProvided
  | inputNotFound (filePath : String)
  | processingFailed (diagnostic : String)
  | outputNotProduced
deriving DecidableEq

/-- Environment of one offline render: whether the ffmpeg binary
responds, which files exist on disk, the diagnostic of a failing ffmpeg
run (none on success) and whether the output file exists afterwards. -/
structure RenderEnv where
  ffmpegAvailable : Bool
  existingFiles : List String
  ffmpegError : Option String
  outputCreated : Bool
deriving DecidableEq

/-- The provided layer paths in check order, the filter(Boolean) of the
source. -/
def providedPaths (bodyPath transientPath texturePath : Option String) :
    List String :=
  [bodyPath, transientPath, texturePath].filterMap id

/-- First provided input path whose file is inaccessible, the path whose
fs.access throws first. -/
def firstMissingInput (env : RenderEnv)
    (bodyPath transientPath texturePath : Option String) : Option String :=
  (providedPaths bodyPath transientPath texturePath).find?
    (fun p1 => !(env.existingFiles.contains p1))

/-- Control flow of generateLayeredSample: ffmpeg availability first,
then the at-least-one-layer guard, then per-file access checks, then the
subprocess run, then the output existence check; the output path is
returned only on full success. -/
def generateLayeredSample (env : RenderEnv)
    (bodyPath transientPath texturePath : Option String)
    (outPath : String) : Except GenError String :=
  if env.ffmpegAvailable = false then .error .engineUnavailable
  else if bodyPath = none ∧ transientPath = none then .error .noLayerProvided
  else
    match firstMissingInput env bodyPath transientPath texturePath with
    | some p1 => .error (.inputNotFound p1)
    | none =>
      match env.ffmpegError with
      | some diagnostic => .error (.processingFailed diagnostic)
      | none =>
        if env.outputCreated = false then .error .outputNotProduced
        else .ok outPath

/-- Environment with no ffmpeg on the path and no files on disk. -/
def envNoEngineNoInput : RenderEnv where
  ffmpegAvailable := false
  existingFiles := []
  ffmpegError := none
  outputCreated := true

/-- Counterexample to claim C8: the renderer checks ffmpeg availability
before the input files, so when the engine is missing and a referenced
layer file is also inaccessible the failure is engine-unavailable, not
input-not-found — the claimed equivalence between input-not-found
failures and inaccessible layer files does not hold. -/
theorem render_error_counterexample :
    firstMissingInput envNoEngineNoInput (some "body.wav") none none =
      some "body.wav" ∧
    generateLayeredSample envNoEngineNoInput (some "body.wav") none none
        "out.wav" = .error .engineUnavailable ∧
    generateLayeredSample envNoEngineNoInput (some "body.wav") none none
        "out.wav" ≠ .error (.inputNotFound "body.wav") :=
  ⟨rfl, rfl, fun h => nomatch h⟩

/-- Claim C8 amended: the failures are prioritized — engine-unavailable
exactly when ffmpeg cannot be invoked; with the engine present and at
least one of body/transient given, input-not-found with path p exactly
when p is the first inaccessible referenced layer file; with all inputs
accessible, processing-failed carrying the engine's diagnostic exactly
when the subprocess terminates abnormally; after a clean run,
output-not-produced exactly when the expected output file is missing;
and no failure ever returns an output path. -/
theorem render_error_taxonomy_amended :
    ∀ (env : RenderEnv) (bodyPath transientPath texturePath : Option String)
      (outPath : String),
      (generateLayeredSample env bodyPath transientPath texturePath outPath =
          .error .engineUnavailable ↔ env.ffmpegAvailable = false) ∧
      (env.ffmpegAvailable = true → ¬(bodyPath = none ∧ transientPath = none) →
        ∀ p1 : String,
          (generateLayeredSample env bodyPath transientPath texturePath outPath =
              .error (.inputNotFound p1) ↔
            firstMissingInput env bodyPath transientPath texturePath = some p1)) ∧
      (env.ffmpegAvailable = true → ¬(bodyPath = none ∧ transientPath = none) →
        firstMissingInput env bodyPath transientPath texturePath = none →
        ∀ diagnostic : String,
          (generateLayeredSample env bodyPath transientPath texturePath outPath =
              .error (.processingFailed diagnostic) ↔
            env.ffmpegError = some diagnostic)) ∧
      (env.ffmpegAvailable = true → ¬(bodyPath = none ∧ transientPath = none) →
        firstMissingInput env bodyPath transientPath texturePath = none →
        env.ffmpegError = none →
        (generateLayeredSample env bodyPath transientPath texturePath outPath =
            .error .outputNotProduced ↔ env.outputCreated = false)) ∧
      (∀ e : GenError,
        generateLayeredSample env bodyPath transientPath texturePath outPath =
            .error e →
          ∀ p2 : String,
            generateLayeredSample env bodyPath transientPath texturePath outPath ≠
              .ok p2) := by
  intro env bodyPath transientPath texturePath outPath
  refine ⟨?_, ?_, ?_, ?_, ?_⟩
  · unfold generateLayeredSample
    split
    · next hf => simp [hf]
    · next hf =>
      simp only [Bool.not_eq_false] at hf
      split
      · simp [hf]
      · split
        · simp [hf]
        · split
          · simp [hf]
          · split <;> simp [hf]
  · intro hf hl p1
    cases hm : firstMissingInput env bodyPath transientPath texturePath with
    | some q => simp [generateLayeredSample, hf, hl, hm]
    | none =>
      cases he : env.ffmpegError with
      | some d => simp [generateLayeredSample, hf, hl, hm, he]
      | none =>
        cases hoc : env.outputCreated <;>
          simp [generateLayeredSample, hf, hl, hm, he, hoc]
  · intro hf hl hm diagnostic
    cases he : env.ffmpegError with
    | some d => simp [generateLayeredSample, hf, hl, hm, he]
    | none =>
      cases hoc : env.outputCreated <;>
        simp [generateLayeredSample, hf, hl, hm, he, hoc]
  · intro hf hl hm he
    cases hoc : env.outputCreated <;>
      simp [generateLayeredSample, hf, hl, hm, he, hoc]
  · intro e he p2 hok
    rw [hok] at he
    exact Except.noConfusion he

/-- Witness for C8 amended: with the engine present, the single layer
file accessible, a clean run but a missing output file, the render fails
with output-not-produced. -/
theorem render_error_taxonomy_amended_witness :
    generateLayeredSample
        { ffmpegAvailable := true, existingFiles := ["body.wav"],
          ffmpegError := none, outputCreated := false }
        (some "body.wav") none none "out.wav" =
      .error .outputNotProduced :=
  ((render_error_taxonomy_amended
      { ffmpegAvailable := true, existingFiles := ["body.wav"],
        ffmpegError := none, outputCreated := false }
      (some "body.wav") none none "out.wav").2.2.2.1 rfl (by simp) rfl
    rfl).mpr rfl

/-- Lower-cased character list of a string, the effect of the
case-insensitive regex flag on both the file name and the embedded
prefix. -/
def lowerChars (s : String) : List Char := s.data.map Char.toLower

/-- Numeric value of a decimal digit character. -/
def digitVal (c : Char) : ℕ := c.toNat - 48

/-- Parse the mandatory tail of the file-name pattern: an underscore,
exactly three decimal digits and the literal extension wav.  Returns the
captured three-digit counter. -/
def parseCounterTail : List Char → Option ℕ
  | ['_', d1, d2, d3, '.', 'w', 'a', 'v'] =>
    if d1.isDigit && d2.isDigit && d3.isDigit then
      some (digitVal d1 * 100 + digitVal d2 * 10 + digitVal d3)
    else none
  | _ => none

/-- Case-insensitive match of one file name against the anchored pattern
prefix, anything, underscore, three digits, dot wav — the regex built by
getNextOutputNumber — returning the captured counter.  The prefix must
occupy the head of the name, and because the pattern is anchored at the
end the final eight characters must be the underscore, counter and
extension.  (The dot-matches-anything segment is modelled as truly
anything, ignoring that a regex dot skips newline characters.) -/
def matchCounter (pfx name : String) : Option ℕ :=
  let p := lowerChars pfx
  let n := lowerChars name
  if p.length + 8 ≤ n.length ∧ n.take p.length = p then
    parseCounterTail (n.drop (n.length - 8))
  else none

/-- getNextOutputNumber: with an unreadable directory (readdir throws)
the result is 1; otherwise the maximum captured counter over all
matching file names (0 when none match) plus one. -/
def getNextOutputNumber (listing : Option (List String)) (pfx : String) : ℕ :=
  match listing with
  | none => 1
  | some files =>
    files.foldl
      (fun maxNum f =>
        match matchCounter pfx f with
        | some num => max maxNum num
        | none => maxNum) 0 + 1

/-- Counters of all file names matching the pattern for a prefix. -/
def matchedCounters (pfx : String) (files : List String) : List ℕ :=
  files.filterMap (matchCounter pfx)

/-- The running-maximum fold of getNextOutputNumber computes the maximum
of the matched counters joined onto the accumulator. -/
theorem foldl_matchCounter_eq (pfx : String) :
    ∀ (files : List String) (a : ℕ),
      files.foldl
          (fun maxNum f =>
            match matchCounter pfx f with
            | some num => max maxNum num
            | none => maxNum) a =
        max a ((matchedCounters pfx files).foldr max 0) := by
  intro files
  induction files with
  | nil => intro a; simp [matchedCounters]
  | cons f rest ih =>
    intro a
    cases hm : matchCounter pfx f with
    | none => simp [List.foldl_cons, hm, matchedCounters, ih]
    | some num =>
      have hfm : matchedCounters pfx (f :: rest) = num :: matchedCounters pfx rest := by
        simp [matchedCounters, List.filterMap_cons, hm]
      simp only [List.foldl_cons, hm, hfm, List.foldr_cons, ih]
      exact Nat.max_assoc a num _

/-- Claim C3: getNextOutputNumber returns 1 for an unreadable directory,
1 when no file name matches the pattern, and otherwise one more than the
maximum three-digit counter among the matching names; in particular a
directory holding PFX_001.wav and PFX_003.wav yields 4, skipping the
gap. -/
theorem next_output_number_correct :
    (∀ pfx : String, getNextOutputNumber none pfx = 1) ∧
    (∀ (pfx : String) (files : List String), matchedCounters pfx files = [] →
      getNextOutputNumber (some files) pfx = 1) ∧
    (∀ (pfx : String) (files : List String),
      getNextOutputNumber (some files) pfx =
        (matchedCounters pfx files).foldr max 0 + 1) ∧
    getNextOutputNumber (some ["PFX_001.wav", "PFX_003.wav"]) "PFX" = 4 := by
  have hmain : ∀ (pfx : String) (files : List String),
      getNextOutputNumber (some files) pfx =
        (matchedCounters pfx files).foldr max 0 + 1 := by
    intro pfx files
    simp only [getNextOutputNumber]
    rw [foldl_matchCounter_eq]
    simp
  refine ⟨fun pfx => rfl, fun pfx files h => ?_, hmain, ?_⟩
  · rw [hmain, h]
    rfl
  · decide

/-- Witness for C3: a listing with no matching file yields 1. -/
theorem next_output_number_correct_witness :
    getNextOutputNumber (some ["readme.txt"]) "PFX" = 1 :=
  next_output_number_correct.2.1 "PFX" ["readme.txt"] (by decide)

/-- Whitespace as the JS trim method sees it (the characters relevant
to directory fields). -/
def isJsWhitespace (c : Char) : Bool :=
  c == ' ' || c == '\t' || c == '\n' || c == '\r'

/-- The trim of a string: leading and trailing whitespace removed. -/
def jsTrim (s : String) : String :=
  String.mk (((s.data.dropWhile isJsWhitespace).reverse.dropWhile
    isJsWhitespace).reverse)

/-- The useTemp test of generateLayeredSample: no output directory, or a
blank one. -/
def useTempDir : Option String → Bool
  | none => true
  | some d1 => jsTrim d1 == ""

/-- The module-level temp output directory, tmpdir joined with the fixed
folder name, computed once per process. -/
def TEMP_OUTPUT_DIR (tmpDir : String) : String :=
  tmpDir ++ "/drum-generator-output"

/-- Output directory actually used by a render: the per-process temp
directory in temp mode, the caller's directory otherwise. -/
def resolvedOutputDir (tmpDir : String) (outputDir : Option String) : String :=
  if useTempDir outputDir then TEMP_OUTPUT_DIR tmpDir else outputDir.getD ""

/-- Decimal digit list of a natural number, the digits a JS template
string renders. -/
def natRepr (n : ℕ) : List Char :=
  if _h : n < 10 then [Nat.digitChar n]
  else natRepr (n / 10) ++ [Nat.digitChar (n % 10)]
termination_by n
decreasing_by exact Nat.div_lt_self (by omega) (by omega)

/-- Value of a decimal digit list, most significant digit first. -/
def digitsVal (ds : List Char) : ℕ :=
  ds.foldl (fun a c => a * 10 + digitVal c) 0

theorem digitVal_digitChar : ∀ d : ℕ, d < 10 → digitVal (Nat.digitChar d) = d := by
  decide

theorem digitChar_ne_underscore : ∀ d : ℕ, d < 10 → Nat.digitChar d ≠ '_' := by
  decide

theorem digitsVal_append (ds : List Char) (c : Char) :
    digitsVal (ds ++ [c]) = digitsVal ds * 10 + digitVal c := by
  simp [digitsVal, List.foldl_append]

theorem digitsVal_natRepr (n : ℕ) : digitsVal (natRepr n) = n := by
  rw [natRepr]
  split
  · next h => simp [digitsVal, digitVal_digitChar n h]
  · next h =>
    rw [digitsVal_append, digitsVal_natRepr (n / 10),
      digitVal_digitChar (n % 10) (Nat.mod_lt _ (by omega))]
    omega
termination_by n
decreasing_by exact Nat.div_lt_self (by omega) (by omega)

theorem natRepr_inj (m n : ℕ) (h : natRepr m = natRepr n) : m = n := by
  rw [← digitsVal_natRepr m, ← digitsVal_natRepr n, h]

theorem underscore_not_mem_natRepr (n : ℕ) : '_' ∉ natRepr n := by
  rw [natRepr]
  split
  · next h =>
    intro hmem
    rw [List.mem_singleton] at hmem
    exact digitChar_ne_underscore n h hmem.symm
  · next h =>
    intro hmem
    rcases List.mem_append.mp hmem with h1 | h2
    · exact underscore_not_mem_natRepr (n / 10) h1
    · rw [List.mem_singleton] at h2
      exact digitChar_ne_underscore (n % 10) (Nat.mod_lt _ (by omega)) h2.symm
termination_by n
decreasing_by exact Nat.div_lt_self (by omega) (by omega)

/-- Two lists each made of a separator-free block, an underscore and a
remainder are equal only blockwise: the first underscore anchors the
split. -/
theorem sep_head_cancel :
    ∀ u v a b : List Char, '_' ∉ u → '_' ∉ v →
      u ++ '_' :: a = v ++ '_' :: b → u = v ∧ a = b := by
  intro u
  induction u with
  | nil =>
    intro v a b _ hv h
    cases v with
    | nil => simpa using h
    | cons c v2 =>
      simp only [List.nil_append, List.cons_append, List.cons.injEq] at h
      obtain ⟨hc, -⟩ := h
      subst hc
      exact absurd (List.mem_cons_self _ _) hv
  | cons c u2 ih =>
    intro v a b hu hv h
    cases v with
    | nil =>
      simp only [List.cons_append, List.nil_append, List.cons.injEq] at h
      obtain ⟨hc, -⟩ := h
      subst hc
      exact absurd (List.mem_cons_self _ _) hu
    | cons d v2 =>
      simp only [List.cons_append, List.cons.injEq] at h
      obtain ⟨hcd, h2⟩ := h
      have hu2 : '_' ∉ u2 := fun hm => hu (List.mem_cons_of_mem _ hm)
      have hv2 : '_' ∉ v2 := fun hm => hv (List.mem_cons_of_mem _ hm)
      obtain ⟨he, ha⟩ := ih v2 a b hu2 hv2 h2
      exact ⟨by rw [hcd, he], ha⟩

/-- The segment after the last underscore separator is determined by the
whole list, as long as it contains no further underscore. -/
theorem trailing_sep_cancel (p q a b : List Char) (ha : '_' ∉ a) (hb : '_' ∉ b)
    (h : p ++ '_' :: a = q ++ '_' :: b) : a = b := by
  have hr := congrArg List.reverse h
  simp only [List.reverse_append, List.reverse_cons, List.append_assoc,
    List.singleton_append] at hr
  have hsplit := sep_head_cancel a.reverse b.reverse p.reverse q.reverse
    (by simpa using ha) (by simpa using hb) hr
  exact List.reverse_injective hsplit.1

/-- The capitalization applied to the request category: first character
upper-cased, remainder untouched. -/
def capitalizeFirst (s : String) : String :=
  match s.data with
  | [] => ""
  | c :: rest => String.mk (c.toUpper :: rest)

/-- Label embedded in a default temp file name: the capitalized request
category, or Generated without one. -/
def categoryLabel : Option String → String
  | some c1 => capitalizeFirst c1
  | none => "Generated"

/-- The default file name generated in temp mode from the category, the
current timestamp and the fresh counter value. -/
def defaultTempFileName (category : Option String) (timestamp counterVal : ℕ) :
    String :=
  "ANDRO_" ++ categoryLabel category ++ "_" ++ String.mk (natRepr timestamp) ++
    "_" ++ String.mk (natRepr counterVal) ++ ".wav"

/-- Distinct counter values give distinct default temp file names,
whatever the categories and timestamps were: the counter is the final
underscore-separated component before the extension and decimal digit
lists are injective. -/
theorem defaultTempFileName_counter_inj (cat1 cat2 : Option String)
    (t1 t2 c1 c2 : ℕ)
    (h : defaultTempFileName cat1 t1 c1 = defaultTempFileName cat2 t2 c2) :
    c1 = c2 := by
  have hd := congrArg String.data h
  have hu : ("_" : String).data = ['_'] := rfl
  simp only [defaultTempFileName, String.data_append, hu,
    List.append_assoc, List.singleton_append] at hd
  have hshape : ∀ (label : List Char) (t c : ℕ),
      ['A', 'N', 'D', 'R', 'O', '_'] ++
          (label ++ ('_' :: natRepr t ++ ('_' :: natRepr c ++ ['.', 'w', 'a', 'v']))) =
        (['A', 'N', 'D', 'R', 'O', '_'] ++ label ++ ['_'] ++ natRepr t) ++
          ('_' :: (natRepr c ++ ['.', 'w', 'a', 'v'])) := by
    intro label t c
    simp [List.append_assoc]
  rw [hshape, hshape] at hd
  have hnw : '_' ∉ (['.', 'w', 'a', 'v'] : List Char) := by decide
  have h1 : '_' ∉ natRepr c1 ++ (['.', 'w', 'a', 'v'] : List Char) := by
    intro hm
    rcases List.mem_append.mp hm with hm1 | hm2
    · exact underscore_not_mem_natRepr c1 hm1
    · exact hnw hm2
  have h2 : '_' ∉ natRepr c2 ++ (['.', 'w', 'a', 'v'] : List Char) := by
    intro hm
    rcases List.mem_append.mp hm with hm1 | hm2
    · exact underscore_not_mem_natRepr c2 hm1
    · exact hnw hm2
  have htail := trailing_sep_cancel _ _ _ _ h1 h2 hd
  exact natRepr_inj c1 c2 (List.append_cancel_right htail)

/-- Sequence of default temp file names produced by successive temp-mode
calls of one process: each call increments the module counter and uses
the fresh value together with its own category and timestamp. -/
def runTempNaming : List (Option String × ℕ) → ℕ → List String
  | [], _ => []
  | (category, timestamp) :: calls, counterState =>
    defaultTempFileName category timestamp (counterState + 1) ::
      runTempNaming calls (counterState + 1)

theorem mem_runTempNaming :
    ∀ (calls : List (Option String × ℕ)) (st : ℕ) (s : String),
      s ∈ runTempNaming calls st →
      ∃ category timestamp k, st < k ∧
        s = defaultTempFileName category timestamp k := by
  intro calls
  induction calls with
  | nil => intro st s h; simp [runTempNaming] at h
  | cons call rest ih =>
    intro st s h
    obtain ⟨category, timestamp⟩ := call
    rcases List.mem_cons.mp h with he | hm
    · exact ⟨category, timestamp, st + 1, Nat.lt_succ_self st, he⟩
    · obtain ⟨c2, t2, k, hk, he⟩ := ih (st + 1) s hm
      exact ⟨c2, t2, k, by omega, he⟩

theorem runTempNaming_pairwise_ne :
    ∀ (calls : List (Option String × ℕ)) (st : ℕ),
      (runTempNaming calls st).Pairwise (fun a b => a ≠ b) := by
  intro calls
  induction calls with
  | nil => intro st; simp [runTempNaming]
  | cons call rest ih =>
    intro st
    obtain ⟨category, timestamp⟩ := call
    refine List.Pairwise.cons ?_ (ih (st + 1))
    intro s hs he
    obtain ⟨c2, t2, k, hk, hse⟩ := mem_runTempNaming rest (st + 1) s hs
    have := defaultTempFileName_counter_inj category c2 timestamp t2 _ _
      (he.trans hse)
    omega

/-- Claim C10: a request with no (or a blank) output directory is routed
to the fixed per-process temp directory, and the default temp file
names of any sequence of temp-mode calls of one process are pairwise
distinct, because every call uses a strictly larger counter value. -/
theorem temp_mode_naming_unique :
    (∀ tmpDir : String, resolvedOutputDir tmpDir none = TEMP_OUTPUT_DIR tmpDir) ∧
    (∀ tmpDir d1 : String, jsTrim d1 = "" →
        resolvedOutputDir tmpDir (some d1) = TEMP_OUTPUT_DIR tmpDir) ∧
    (∀ (calls : List (Option String × ℕ)) (st : ℕ),
        (runTempNaming calls st).Pairwise (fun a b => a ≠ b)) := by
  refine ⟨fun tmpDir => rfl, fun tmpDir d1 h => ?_, runTempNaming_pairwise_ne⟩
  simp [resolvedOutputDir, useTempDir, h]

/-- Witness for C10: a whitespace-only directory field is blank after
trimming and resolves to the temp directory. -/
theorem temp_mode_naming_unique_witness :
    resolvedOutputDir "/tmp" (some "  ") = TEMP_OUTPUT_DIR "/tmp" :=
  temp_mode_naming_unique.2.1 "/tmp" "  " (by decide)

end DrumMachine
